import Mathlib

/-!
Verification of `final_clean.py`, the batch data-cleaning pipeline of the
ISR_dash repository.  The pandas `DataFrame` is shallowly embedded: a cell is
a `Value` (null, string, int, float-as-rational, bool, timestamp), a row is an
association list from column names to values, and a table carries its column
list together with its rows.  Python exceptions (`KeyError`, `ValueError`,
`AttributeError`) are modelled with `Except String` / `Option`.  String
manipulation is done on `List Char` so that all definitions reduce in the
kernel.
-/

namespace ISRDash

/-- A pandas cell value.  `null` stands for `None`/`NaN`; Python floats are
modelled as rationals (only exact decimal arithmetic occurs in the source). -/
inductive Value where
  | null
  | str (s : String)
  | int (n : Int)
  | float (q : ℚ)
  | bool (b : Bool)
  | timestamp (s : String)
deriving DecidableEq, Repr

/-- Model of `pd.isnull` / `pd.isna` on an embedded cell. -/
def Value.isNull : Value → Bool
  | .null => true
  | _ => false

/-- Line 85: `df['Institute for Social Research\nLifetime Recognition'].map(lambda x: 'ISR Donor', na_action='ignore')`.
With `na_action='ignore'` a null input is left null, any other input maps to
the constant `'ISR Donor'`. -/
def donorStatusFromISR (isr : Value) : Value :=
  if isr.isNull then Value.null else Value.str "ISR Donor"

/-- Lines 132–136, `UM_donor(row)`: if the current `donor_status` is null and
`row['UM-Wide\nLifetime Recognition']` is non-null, return `'UM Donor'`,
otherwise keep the current `donor_status`. -/
def UM_donor (donor_status um : Value) : Value :=
  if donor_status.isNull && !um.isNull then Value.str "UM Donor" else donor_status

/-- Line 89: `df['donor_status'].fillna('Non Donor', inplace=True)`. -/
def fillNonDonor (v : Value) : Value :=
  if v.isNull then Value.str "Non Donor" else v

/-- The composite per-row `donor_status` computation of lines 85–89: seed from
the ISR lifetime-recognition cell, apply `UM_donor`, fill the rest with
`'Non Donor'`. -/
def donor_status (isr um : Value) : Value :=
  fillNonDonor (UM_donor (donorStatusFromISR isr) um)

/-- Digit test `'0' ≤ c ≤ '9'`, as Python's float parser accepts. -/
def isDig (c : Char) : Bool := '0' ≤ c && c ≤ '9'

/-- Numeric value of a digit string read most-significant first. -/
def digitsVal (l : List Char) : Nat :=
  l.foldl (fun a c => a * 10 + (c.toNat - 48)) 0

/-- The ASCII whitespace Python's `float` / `str.strip` remove. -/
def pyWs (c : Char) : Bool :=
  c = ' ' || c = '\t' || c = '\n' || c = '\r' || c = '\x0b' || c = '\x0c'

/-- Python `str.strip()` on the character list of a string. -/
def pyStrip (l : List Char) : List Char :=
  ((l.dropWhile pyWs).reverse.dropWhile pyWs).reverse

/-- The components of a finite decimal literal: sign, integer part, fractional
digits with their count, and a signed exponent. -/
structure FloatLit where
  sign : Int
  ipart : Nat
  fpart : Nat
  flen : Nat
  ex : Int
deriving DecidableEq, Repr

/-- Model of Python's `float(str)` builtin restricted to finite decimal
literals: optional sign, an integer part and/or a fractional part (at least
one digit overall), and an optional signed exponent; surrounding whitespace is
stripped.  Special forms (`inf`, `nan`, underscore separators) do not occur in
currency data and are treated as unparseable.  `none` models the `ValueError`
that `float` raises on any other string. -/
def parseFloatLit (cs0 : List Char) : Option FloatLit :=
  let cs := pyStrip cs0
  let (sign, cs) :=
    match cs with
    | '-' :: rest => ((-1 : Int), rest)
    | '+' :: rest => ((1 : Int), rest)
    | rest => ((1 : Int), rest)
  let intPart := cs.takeWhile isDig
  let cs := cs.dropWhile isDig
  let (fracPart, cs) :=
    match cs with
    | '.' :: rest => (rest.takeWhile isDig, rest.dropWhile isDig)
    | rest => ([], rest)
  if intPart.isEmpty && fracPart.isEmpty then none
  else
    let base : FloatLit := ⟨sign, digitsVal intPart, digitsVal fracPart, fracPart.length, 0⟩
    match cs with
    | [] => some base
    | e :: rest =>
      if e = 'e' || e = 'E' then
        let (esign, rest) :=
          match rest with
          | '-' :: r => ((-1 : Int), r)
          | '+' :: r => ((1 : Int), r)
          | r => ((1 : Int), r)
        let eDigits := rest.takeWhile isDig
        let rest := rest.dropWhile isDig
        if eDigits.isEmpty || !rest.isEmpty then none
        else some { base with ex := esign * (digitsVal eDigits : Int) }
      else none

/-- The rational value a parsed decimal literal denotes. -/
def FloatLit.toRat (f : FloatLit) : ℚ :=
  (f.sign : ℚ) * ((f.ipart : ℚ) + (f.fpart : ℚ) / (10 : ℚ) ^ f.flen) * (10 : ℚ) ^ f.ex

/-- Python `float(s)`: parse and evaluate, `none` for `ValueError`. -/
def pyFloat (s : String) : Option ℚ :=
  (parseFloatLit s.data).map FloatLit.toRat

/-- Line 153's `num.replace(',', '').replace('$', '')`: every comma and dollar
sign is removed (for one-character patterns, Python `str.replace` with an
empty replacement is a character filter). -/
def stripCommaDollar (s : String) : String :=
  String.mk (s.data.filter (fun c => c ≠ ',' && c ≠ '$'))

/-- Lines 139–156, `replace(num)`: null → `0`; a string has `','` and `'$'`
stripped and is passed to `float` (so an unparseable string raises
`ValueError`, modelled as `none`); an int/float/bool (Python `bool` is an
`int` subclass, so `isinstance(num, (int, float))` holds) is returned
unchanged; any other kind of value → `0` (here only `timestamp`). -/
def replace (num : Value) : Option Value :=
  match num with
  | .null => some (.int 0)
  | .str s => (pyFloat (stripCommaDollar s)).map Value.float
  | .int n => some (.int n)
  | .float q => some (.float q)
  | .bool b => some (.bool b)
  | .timestamp _ => some (.int 0)

/-- Model of `affiliation.replace('\n', ',')` character by character (a one-character
pattern makes Python `str.replace` a character map). -/
def nlToComma (c : Char) : Char := if c = '\n' then ',' else c

/-- Python `str.split(',')` on a character list: split at every comma, keeping
empty fields (`''.split(',') = ['']`). -/
def splitComma : List Char → List (List Char)
  | [] => [[]]
  | c :: cs =>
    if c = ',' then [] :: splitComma cs
    else
      match splitComma cs with
      | [] => [[c]]
      | t :: ts => (c :: t) :: ts

/-- First-occurrence de-duplication, the effect of Python's
`list(set(...))` (whose iteration order is unspecified; the model fixes
first-seen order). -/
def pyDedupAux (seen : List String) : List String → List String
  | [] => []
  | x :: xs => if x ∈ seen then pyDedupAux seen xs else x :: pyDedupAux (x :: seen) xs

/-- De-duplicate a token list, keeping first occurrences. -/
def pyDedup (l : List String) : List String := pyDedupAux [] l

/-- Lines 165–169, `clean_affiliations(affiliation)`: null → `[]`; otherwise
replace newlines with commas, split on commas, de-duplicate
(`list(set(...))`).  The affiliation column is text, so the cell is an
`Option String`. -/
def clean_affiliations (aff : Option String) : List String :=
  match aff with
  | none => []
  | some s => pyDedup ((splitComma (s.data.map nlToComma)).map String.mk)

/-- One step of `all_affiliations.update(affil_list)` (line 174): set union,
modelled as append of the not-yet-seen tokens. -/
def listUnion (acc l : List String) : List String :=
  acc ++ l.filter (fun t => decide (t ∉ acc))

/-- Lines 172–174: the union of all per-row parsed affiliation token sets. -/
def all_affiliations (col : List (Option String)) : List String :=
  col.foldl (fun acc a => listUnion acc (clean_affiliations a)) []

/-- Lines 176–177: for every discovered token `t`, a boolean column whose
value in each row is `t ∈` that row's parsed list (`affil in x`).  A row is
rendered as the association list of its affiliation columns. -/
def create_affiliation_columns (col : List (Option String)) :
    List (List (String × Bool)) :=
  (col.map clean_affiliations).map
    (fun l => (all_affiliations col).map (fun t => (t, decide (t ∈ l))))

/-- C1.  For every row of the normalized table, the derived `donor_status`
field satisfies: if the ISR lifetime-recognition cell is non-null then
`'ISR Donor'` (regardless of the UM-wide cell); else if the UM-wide
lifetime-recognition cell is non-null then `'UM Donor'`; else `'Non Donor'`. -/
theorem donor_status_precedence (isr um : Value) :
    donor_status isr um =
      if ¬ isr.isNull then Value.str "ISR Donor"
      else if ¬ um.isNull then Value.str "UM Donor"
      else Value.str "Non Donor" := by
  cases isr <;> cases um <;> rfl

/-- C3, counterexample.  The claim says `replace` returns `0` on an
unparseable input, but on the unparseable string `"abc"` the code raises
`ValueError` inside `float(...)` (modelled as `none`); it returns neither
integer `0` nor float `0`. -/
theorem replace_unparseable_raises :
    replace (Value.str "abc") = none ∧
    replace (Value.str "abc") ≠ some (Value.int 0) ∧
    replace (Value.str "abc") ≠ some (Value.float 0) := by
  refine ⟨by decide, by decide, by decide⟩

/-- C3, amended.  `replace` returns `0` when the input is null (the only
"unparseable" inputs mapped to `0` are non-string non-numeric values); on a
string it strips commas and dollar signs and coerces with `float`, which
raises `ValueError` on an unparseable string instead of returning `0`;
numeric inputs are returned unchanged.  In particular
`replace("$1,234.50") = 1234.5`, `replace(None) = 0`, `replace(42) = 42`. -/
theorem replace_spec :
    replace Value.null = some (Value.int 0) ∧
    (∀ n : Int, replace (Value.int n) = some (Value.int n)) ∧
    (∀ q : ℚ, replace (Value.float q) = some (Value.float q)) ∧
    (∀ s : String, pyFloat (stripCommaDollar s) = none →
      replace (Value.str s) = none) ∧
    (∀ s : String, ∀ q : ℚ, pyFloat (stripCommaDollar s) = some q →
      replace (Value.str s) = some (Value.float q)) ∧
    replace (Value.str "$1,234.50") = some (Value.float (2469 / 2)) := by
  refine ⟨rfl, fun n => rfl, fun q => rfl, fun s h => ?_, fun s q h => ?_, ?_⟩
  · simp [replace, h]
  · simp [replace, h]
  · have h : parseFloatLit (stripCommaDollar "$1,234.50").data =
        some ⟨1, 1234, 50, 2, 0⟩ := by decide
    show (pyFloat (stripCommaDollar "$1,234.50")).map Value.float =
      some (Value.float (2469 / 2))
    rw [pyFloat, h]
    simp [FloatLit.toRat]
    norm_num

/-- C3, witness for the amended theorem at concrete inputs. -/
theorem replace_spec_witness :
    replace (Value.str "xyz") = none ∧
    replace (Value.int 42) = some (Value.int 42) := by
  refine ⟨replace_spec.2.2.2.1 "xyz" (by decide), replace_spec.2.1 42⟩

lemma mem_listUnion {t : String} {acc l : List String} :
    t ∈ listUnion acc l ↔ t ∈ acc ∨ t ∈ l := by
  simp [listUnion, List.mem_append, List.mem_filter]
  tauto

lemma mem_all_affiliations_aux (col : List (Option String)) :
    ∀ (acc : List String) (t : String),
      t ∈ col.foldl (fun acc a => listUnion acc (clean_affiliations a)) acc ↔
        t ∈ acc ∨ ∃ a ∈ col, t ∈ clean_affiliations a := by
  induction col with
  | nil => simp
  | cons hd tl ih =>
    intro acc t
    simp only [List.foldl_cons, ih, mem_listUnion, List.mem_cons]
    constructor
    · rintro (( h | h) | ⟨a, ha, h⟩)
      · exact Or.inl h
      · exact Or.inr ⟨hd, Or.inl rfl, h⟩
      · exact Or.inr ⟨a, Or.inr ha, h⟩
    · rintro (h | ⟨a, (rfl | ha), h⟩)
      · exact Or.inl (Or.inl h)
      · exact Or.inl (Or.inr h)
      · exact Or.inr ⟨a, ha, h⟩

lemma lookup_map_self (f : String → Bool) :
    ∀ (alls : List String) (t : String), t ∈ alls →
      (alls.map (fun u => (u, f u))).lookup t = some (f t) := by
  intro alls
  induction alls with
  | nil => simp
  | cons hd tl ih =>
    intro t ht
    by_cases h : hd = t
    · subst h
      simp [List.lookup]
    · have hne : (t == hd) = false := beq_eq_false_iff_ne.mpr (Ne.symm h)
      rcases List.mem_cons.mp ht with h' | h'
      · exact absurd h'.symm h
      · simp only [List.map_cons, List.lookup, hne]
        exact ih t h'

/-- C4.  After the Affiliation Expander runs: every row has the same columns,
in the order of `all_affiliations`; a token is a column iff some row's parsed
set contains it; the cell of column `t` in row `i` is the membership test of
`t` in row `i`'s parsed set. -/
theorem affiliation_columns_spec (col : List (Option String)) :
    (∀ row ∈ create_affiliation_columns col,
        row.map Prod.fst = all_affiliations col) ∧
    (∀ t : String,
        t ∈ all_affiliations col ↔ ∃ a ∈ col, t ∈ clean_affiliations a) ∧
    (∀ (i : Nat) (a : Option String) (t : String),
        col[i]? = some a → t ∈ all_affiliations col →
        ((create_affiliation_columns col)[i]?.bind (fun row => row.lookup t)) =
          some (decide (t ∈ clean_affiliations a))) := by
  refine ⟨?_, ?_, ?_⟩
  · intro row hrow
    simp only [create_affiliation_columns, List.mem_map] at hrow
    obtain ⟨l, _, rfl⟩ := hrow
    simp [Function.comp_def]
  · intro t
    simpa using mem_all_affiliations_aux col [] t
  · intro i a t hi ht
    simp only [create_affiliation_columns, List.getElem?_map, hi,
      Option.map_some, Option.bind_some]
    exact lookup_map_self _ (all_affiliations col) t ht

/-- C4, witness: the affiliation table of `[some "A\nB,C", none]` at row 0,
column `"B"`, and the column-discovery property for `"C"`. -/
theorem affiliation_columns_spec_witness :
    ((create_affiliation_columns [some "A\nB,C", none])[0]?.bind
        (fun row => row.lookup "B")) = some true ∧
    ("C" ∈ all_affiliations [some "A\nB,C", none] ↔
      ∃ a ∈ ([some "A\nB,C", none] : List (Option String)),
        "C" ∈ clean_affiliations a) := by
  constructor
  · exact ((affiliation_columns_spec [some "A\nB,C", none]).2.2 0
      (some "A\nB,C") "B" (by decide) (by decide)).trans (by decide)
  · exact (affiliation_columns_spec [some "A\nB,C", none]).2.1 "C"

lemma map_nlToComma_id {l : List Char} (h : '\n' ∉ l) : l.map nlToComma = l := by
  induction l with
  | nil => rfl
  | cons c cs ih =>
    simp only [List.mem_cons, not_or] at h
    have hc : c ≠ '\n' := Ne.symm h.1
    simp [nlToComma, hc, ih h.2]

lemma splitComma_no_comma {b : List Char} (h : ',' ∉ b) : splitComma b = [b] := by
  induction b with
  | nil => rfl
  | cons c cs ih =>
    simp only [List.mem_cons, not_or] at h
    have hc : ¬ c = ',' := Ne.symm h.1
    simp [splitComma, hc, ih h.2]

lemma splitComma_append {a : List Char} (b : List Char) (h : ',' ∉ a) :
    splitComma (a ++ ',' :: b) = a :: splitComma b := by
  induction a with
  | nil => simp [splitComma]
  | cons c cs ih =>
    simp only [List.mem_cons, not_or] at h
    have hc : ¬ c = ',' := Ne.symm h.1
    simp only [List.cons_append, splitComma, hc, if_false, List.append_eq, ih h.2]

/-- C9.  Affiliation parsing trims no whitespace: concatenating two
separator-free fragments with a comma yields exactly the two verbatim
fragments as tokens, and when the fragments differ they give two distinct
boolean columns.  E.g. `"A, B"` produces the token `" B"` with its leading
space. -/
theorem affiliation_no_trim (a b : List Char)
    (hac : ',' ∉ a) (han : '\n' ∉ a) (hbc : ',' ∉ b) (hbn : '\n' ∉ b)
    (hne : a ≠ b) :
    clean_affiliations (some (String.mk (a ++ ',' :: b))) =
      [String.mk a, String.mk b] ∧
    String.mk a ≠ String.mk b ∧
    all_affiliations [some (String.mk (a ++ ',' :: b))] =
      [String.mk a, String.mk b] := by
  have hmk : String.mk a ≠ String.mk b := by
    intro h
    exact hne (by injection h)
  have hclean : clean_affiliations (some (String.mk (a ++ ',' :: b))) =
      [String.mk a, String.mk b] := by
    have hmap : (a ++ ',' :: b).map nlToComma = a ++ ',' :: b := by
      rw [List.map_append]
      rw [map_nlToComma_id han]
      have : (',' :: b).map nlToComma = ',' :: b := by
        simpa [nlToComma] using map_nlToComma_id hbn
      rw [this]
    show pyDedup ((splitComma ((a ++ ',' :: b).map nlToComma)).map String.mk) = _
    rw [hmap, splitComma_append b hac, splitComma_no_comma hbc]
    simp [pyDedup, pyDedupAux, hmk, Ne.symm hmk]
  refine ⟨hclean, hmk, ?_⟩
  show listUnion [] (clean_affiliations (some (String.mk (a ++ ',' :: b)))) = _
  rw [hclean]
  simp [listUnion]

/-- C9, witness: `"A, B"` parses to `["A", " B"]`, and `" B"` and `"B"` are
distinct columns of the table `["A, B", "A,B"]`. -/
theorem affiliation_no_trim_witness :
    clean_affiliations (some "A, B") = ["A", " B"] ∧
    (" B" : String) ≠ "B" ∧
    " B" ∈ all_affiliations [some "A, B", some "A,B"] ∧
    "B" ∈ all_affiliations [some "A, B", some "A,B"] := by
  have h := affiliation_no_trim ['A'] [' ', 'B'] (by decide) (by decide)
    (by decide) (by decide) (by decide)
  have h2 := affiliation_no_trim [' ', 'B'] ['B'] (by decide) (by decide)
    (by decide) (by decide) (by decide)
  exact ⟨h.1, h2.2.1, by decide, by decide⟩

/-- A pandas column dtype, as the `str(df[column].dtype)` keys of the
`fill_values` dict (lines 109–116): `'object'`, `'float64'`, `'int64'`,
`'datetime64[ns]'`, `'bool'`, `'category'` (carrying its registered
categories), or any other dtype string. -/
inductive Dtype where
  | object
  | float64
  | int64
  | datetime64
  | bool
  | category (cats : List String)
  | other (name : String)
deriving DecidableEq, Repr

/-- Lines 109–116 and line 122: the fill value for a dtype, with
`'Not Available'` as the `.get` default for unrecognized dtypes. -/
def fillValue : Dtype → Value
  | .object => .str "Not Available"
  | .float64 => .float 0
  | .int64 => .int 0
  | .datetime64 => .timestamp "1900-01-01"
  | .bool => .bool false
  | .category _ => .str "Not Available"
  | .other _ => .str "Not Available"

/-- One table column: its declared dtype and its cells. -/
structure Column where
  dtype : Dtype
  cells : List Value
deriving DecidableEq, Repr

/-- Lines 119–128, the body of the per-column loop of
`fill_missing_values`: if the column has any null, register
`'Not Available'` as a category when the dtype is categorical and lacks it
(lines 123–124), then `fillna` every null cell with the dtype's fill value
(line 125); otherwise leave the column untouched. -/
def fill_missing_values_col (c : Column) : Column :=
  if c.cells.any Value.isNull then
    let d :=
      match c.dtype with
      | .category cats =>
        if "Not Available" ∈ cats then Dtype.category cats
        else Dtype.category (cats ++ ["Not Available"])
      | d => d
    ⟨d, c.cells.map (fun v => if v.isNull then fillValue c.dtype else v)⟩
  else c

/-- Lines 100–130, `fill_missing_values(df)`: the per-column fill applied to
every column of the table. -/
def fill_missing_values (df : List Column) : List Column :=
  df.map fill_missing_values_col

lemma fillValue_ne_null (d : Dtype) : fillValue d ≠ Value.null := by
  cases d <;> simp [fillValue]

lemma isNull_iff {v : Value} : v.isNull = true ↔ v = Value.null := by
  cases v <;> simp [Value.isNull]

lemma fill_missing_values_col_cells (c : Column) (j : Nat) :
    (fill_missing_values_col c).cells[j]? =
      (c.cells[j]?).map (fun v => if v.isNull then fillValue c.dtype else v) := by
  rw [fill_missing_values_col]
  by_cases h : c.cells.any Value.isNull
  · simp [h]
  · simp only [h, if_false]
    rcases hj : c.cells[j]? with _ | v
    · simp [hj]
    · have hv : v ∈ c.cells := List.getElem?_mem hj
      have : v.isNull = false := by
        rcases Bool.eq_false_or_eq_true v.isNull with h' | h'
        · exact absurd (List.any_eq_true.mpr ⟨v, hv, h'⟩) h
        · exact h'
      simp [hj, this]

/-- C5.  After the Missing-Value Filler runs, no cell is null; each cell is
the original when non-null and the dtype-determined default when null; and a
categorical column that had a null gets `'Not Available'` registered among
its categories. -/
theorem fill_missing_values_spec (df : List Column) :
    (∀ c ∈ fill_missing_values df, ∀ v ∈ c.cells, v ≠ Value.null) ∧
    (∀ (i j : Nat) (c : Column), df[i]? = some c →
      ((fill_missing_values df)[i]?).map (fun c' => c'.cells[j]?) =
        some ((c.cells[j]?).map
          (fun v => if v.isNull then fillValue c.dtype else v))) ∧
    (∀ c ∈ df, ∀ cats : List String, c.dtype = Dtype.category cats →
      c.cells.any Value.isNull = true →
      ∃ cats' : List String, (fill_missing_values_col c).dtype =
          Dtype.category cats' ∧ "Not Available" ∈ cats') := by
  refine ⟨?_, ?_, ?_⟩
  · intro c hc v hv
    simp only [fill_missing_values, List.mem_map] at hc
    obtain ⟨c0, _, rfl⟩ := hc
    rw [fill_missing_values_col] at hv
    by_cases h : c0.cells.any Value.isNull
    · simp only [h, if_true] at hv
      simp only [List.mem_map] at hv
      obtain ⟨w, _, rfl⟩ := hv
      by_cases hw : w.isNull
      · simp [hw, fillValue_ne_null]
      · simp only [hw, if_false]
        intro h'
        exact hw (isNull_iff.mpr h' ▸ rfl)
    · simp only [h, if_false] at hv
      intro h'
      subst h'
      exact h (List.any_eq_true.mpr ⟨Value.null, hv, rfl⟩)
  · intro i j c hi
    simp only [fill_missing_values, List.getElem?_map, hi, Option.map_some']
    rw [fill_missing_values_col_cells]
  · intro c _ cats hcat hnull
    rw [fill_missing_values_col, hnull]
    simp only [if_true, hcat]
    by_cases h : "Not Available" ∈ cats
    · exact ⟨cats, by simp [h], h⟩
    · exact ⟨cats ++ ["Not Available"], by simp [h], by simp⟩

/-- C5, witness at a concrete two-column table with nulls. -/
theorem fill_missing_values_spec_witness :
    ((fill_missing_values
        [⟨Dtype.float64, [Value.null, Value.float 7]⟩,
         ⟨Dtype.category ["x"], [Value.null]⟩])[0]?).map
      (fun c' => c'.cells[0]?) = some (some (Value.float 0)) ∧
    (∃ cats' : List String,
      (fill_missing_values_col ⟨Dtype.category ["x"], [Value.null]⟩).dtype =
          Dtype.category cats' ∧ "Not Available" ∈ cats') := by
  have h := fill_missing_values_spec
    [⟨Dtype.float64, [Value.null, Value.float 7]⟩,
     ⟨Dtype.category ["x"], [Value.null]⟩]
  constructor
  · exact (h.2.1 0 0 ⟨Dtype.float64, [Value.null, Value.float 7]⟩ rfl).trans
      (by decide)
  · exact h.2.2 ⟨Dtype.category ["x"], [Value.null]⟩ (by decide) ["x"] rfl
      (by decide)

/-- C10.  The Missing-Value Filler never modifies a non-null cell: any cell
holding a non-null value before `fill_missing_values` holds the identical
value afterwards. -/
theorem fill_missing_values_frame (df : List Column) (i j : Nat) (c : Column)
    (v : Value) (hc : df[i]? = some c) (hv : c.cells[j]? = some v)
    (hnn : v ≠ Value.null) :
    ∃ c' : Column, (fill_missing_values df)[i]? = some c' ∧
      c'.cells[j]? = some v := by
  refine ⟨fill_missing_values_col c, ?_, ?_⟩
  · simp [fill_missing_values, hc]
  · rw [fill_missing_values_col_cells, hv]
    have : v.isNull = false := by
      rcases Bool.eq_false_or_eq_true v.isNull with h' | h'
      · exact absurd (isNull_iff.mp h') hnn
      · exact h'
    simp [this]

/-- C10, witness: the non-null cell of a column that also has a null is kept
unchanged. -/
theorem fill_missing_values_frame_witness :
    ∃ c' : Column,
      (fill_missing_values [⟨Dtype.object, [Value.null, Value.str "keep"]⟩])[0]? =
        some c' ∧ c'.cells[1]? = some (Value.str "keep") :=
  fill_missing_values_frame [⟨Dtype.object, [Value.null, Value.str "keep"]⟩]
    0 1 ⟨Dtype.object, [Value.null, Value.str "keep"]⟩ (Value.str "keep")
    rfl rfl (by decide)

/-- A row at the interest-merge stage, keyed by its `LID` cell, with
its remaining named fields. -/
structure RecRow where
  lid : Value
  fields : List (String × Value)
deriving DecidableEq, Repr

/-- Lines 265–268: the rename of the two ambiguous
`Date of Last Recognition Transaction` columns, applied to one field name. -/
def renameRecCol (k : String) : String :=
  if k = "Date of Last Recognition Transaction" then
    "Date of Last UM Recognition Transaction"
  else if k = "Date of Last Recognition Transaction.1" then
    "Date of Last ISR Recognition Transaction"
  else k

/-- The column rename applied to a whole row. -/
def renameRecRow (r : RecRow) : RecRow :=
  ⟨r.lid, r.fields.map (fun p => (renameRecCol p.1, p.2))⟩

/-- Line 269, `drop_duplicates(subset='LID', keep='first')`, with the set of
already-seen `LID` keys as accumulator: keep a row iff its key has not
occurred before. -/
def dropDupLIDAux (seen : List Value) : List RecRow → List RecRow
  | [] => []
  | r :: rs =>
    if r.lid ∈ seen then dropDupLIDAux seen rs
    else r :: dropDupLIDAux (r.lid :: seen) rs

/-- Lines 255–270, `merged_df_edits(merged_df)`: rename the two date columns,
then de-duplicate on `LID` keeping the first occurrence. -/
def merged_df_edits (rows : List RecRow) : List RecRow :=
  dropDupLIDAux [] (rows.map renameRecRow)

lemma dropDupLIDAux_filter (l : Value) :
    ∀ (rows : List RecRow) (seen : List Value),
      (dropDupLIDAux seen rows).filter (fun r => decide (r.lid = l)) =
        if l ∈ seen then []
        else ((rows.find? (fun r => decide (r.lid = l))).toList) := by
  intro rows
  induction rows with
  | nil => intro seen; by_cases h : l ∈ seen <;> simp [dropDupLIDAux, h]
  | cons r rs ih =>
    intro seen
    by_cases hr : r.lid ∈ seen
    · simp only [dropDupLIDAux, hr, if_true]
      rw [ih seen]
      by_cases hl : l ∈ seen
      · simp [hl]
      · have hrl : ¬ r.lid = l := fun h => hl (h ▸ hr)
        rw [if_neg hl, if_neg hl, List.find?_cons_of_neg rs (by simp [hrl])]
    · simp only [dropDupLIDAux, hr, if_false]
      by_cases hrl : r.lid = l
      · have hl : l ∉ seen := hrl ▸ hr
        rw [List.filter_cons_of_pos (by simp [hrl]), ih (r.lid :: seen),
          if_pos (by simp [hrl]), if_neg hl,
          List.find?_cons_of_pos rs (by simp [hrl])]
        rfl
      · rw [List.filter_cons_of_neg (by simp [hrl]), ih (r.lid :: seen)]
        by_cases hl : l ∈ seen
        · rw [if_pos (by simp [hl]), if_pos hl]
        · rw [if_neg (by simp [hl, Ne.symm hrl]), if_neg hl,
            List.find?_cons_of_neg rs (by simp [hrl])]

/-- C6.  In the output of `merged_df_edits`, `LID` is unique: for any key
`l`, the output rows with that key are exactly the first input row carrying
it (after the column rename), so duplicate keys collapse to the
first-encountered occurrence and later duplicates are discarded. -/
theorem merged_df_edits_lid_unique (rows : List RecRow) (l : Value) :
    (merged_df_edits rows).filter (fun r => decide (r.lid = l)) =
      ((rows.find? (fun r => decide (r.lid = l))).map renameRecRow).toList := by
  rw [merged_df_edits, dropDupLIDAux_filter l (rows.map renameRecRow) [],
    if_neg (List.not_mem_nil l), List.find?_map renameRecRow rows]
  rfl

/-- A DataFrame at the schema-normalization stage: column names in order,
rows as association lists from column name to cell value. -/
structure Table where
  cols : List String
  rows : List (List (String × Value))
deriving DecidableEq, Repr

/-- Lines 42–58: the fixed list of columns passed to `df.drop(columns=[...])`,
in source order. -/
def dropList : List String :=
  ["Other Country.1", "Other Major Gift Region.1",
   "Other Primary Metro.1", "Other Zip.1",
   "Other State.1", "Other City.1",
   "Other Address.1", "Other Address Incomplete?.1",
   "Other Type.1", "Other Country",
   "Other Major Gift Region", "Other Primary Metro",
   "Other Zip", "Other State",
   "Other City", "Other Address",
   "Other Address Is Primary?", "Other Address Incomplete?",
   "Other Type", "Home Address Incomplete?",
   "Home Address Is Primary?", "Work Country",
   "Work Primary Metro Area", "Work Major Gift Region",
   "Work Phone", "Work County",
   "Work Zip", "Work State",
   "Work City", "Work Address",
   "Work Address Is Primary?", "Work Address Incomplete?",
   "Career Level", "Full Name",
   "Title", "First Name",
   "Last/Name/Org Name", "Committee Name",
   "Committee Role", "Former Commitee Name",
   "Former Committee Role", "Spouse LookupID",
   "Formal Mailing Name (Joint/Individual)", "Informal Mailing Name (Joint/Individual)",
   "Payments Received", "Expectancies (Balance Due)",
   "Commitments (Balance Due)", "# of Recognition Transactions",
   "Number of Years of Recognition", "One-Time Gifts",
   "Commitments", "Expectancies",
   "A.6", "A.7",
   "A.5", "A.4",
   "A.8", "Payments Received.1",
   "A.9", "Commitments (Balance Due).1",
   "A.10", "Expectancies (Balance Due).1",
   "A.11", "Last Amount",
   "Last Designation", "# of Recognition Transactions.1",
   "Number of Years of Recognition.1", " Campaign Recognition",
   "A.12", "One-Time Gifts.1",
   "Commitments.1", "A.13",
   "A.14", "Expectancies.1",
   "A.15", "Last Visit/Introduction by",
   "Interaction Type", "Job Category",
   "Home Phone", "Monteith Society",
   "Primary Capacity Rating Type", "Primary Capacity Rating Date",
   "Primary Inclination Rating Type", "Primary Inclination Rating Date",
   "Gift Officer Field Rating", "Gift Officer Field Rating Date",
   "Research Rating", "Research Rating Date",
   "Capacity Verified Rating", "Capacity Verified Rating Date",
   "Capacity Unverified Rating", "Capacity Unverified Rating Date",
   "Blackbaud Hard Asset", "Blackbaud Hard Asset Date",
   "Wealth-X Net Worth", "Wealth-X Net Worth Date",
   "Windfall Data Net Worth", "Windfall Data Net Worth Date",
   "Target Analytics Net Worth", "Target Analytics Net Worth Date",
   "PDA UM Inclination", "UM AG Propensity",
   "Med Primary Manager"]

/-- Model of `df.drop(columns=dropList)` (lines 42–58).  pandas `drop` raises
`KeyError` when any named column is absent (no `errors='ignore'` is passed);
otherwise it removes the named columns from the schema and from every row. -/
def dropColumns (t : Table) : Except String Table :=
  if dropList.all (fun c => t.cols.contains c) then
    .ok ⟨t.cols.filter (fun c => !dropList.contains c),
         t.rows.map (fun r => r.filter (fun p => !dropList.contains p.1))⟩
  else .error "KeyError"

/-- Model of `df.rename(columns={o: n})`: renames the column where present, silently a
no-op where absent, in the schema and in every row. -/
def renameCol (t : Table) (o n : String) : Table :=
  ⟨t.cols.map (fun c => if c = o then n else c),
   t.rows.map (fun r => r.map (fun p => (if p.1 = o then n else p.1, p.2)))⟩

/-- Lookup `row[k]` on an association-list row: `KeyError` when the key is absent. -/
def getVal (r : List (String × Value)) (k : String) : Except String Value :=
  match r.lookup k with
  | some v => .ok v
  | none => .error "KeyError"

/-- Assign a cell in a row: overwrite the existing key or append a new one. -/
def setCell (r : List (String × Value)) (k : String) (v : Value) :
    List (String × Value) :=
  if (r.lookup k).isSome then
    r.map (fun p => if p.1 = k then (k, v) else p)
  else r ++ [(k, v)]

/-- Assignment `df[name] = const`: set a whole column to one constant value. -/
def setColConst (t : Table) (k : String) (v : Value) : Table :=
  ⟨if t.cols.contains k then t.cols else t.cols ++ [k],
   t.rows.map (fun r => setCell r k v)⟩

/-- Assignment `df[name] = df.apply(f, axis=1)`: compute a cell per row (propagating the
row function's exception) and assign the column. -/
def setColWith (t : Table) (k : String)
    (f : List (String × Value) → Except String Value) : Except String Table := do
  let rows ← t.rows.mapM (fun r => do
    let v ← f r
    pure (setCell r k v))
  pure ⟨if t.cols.contains k then t.cols else t.cols ++ [k], rows⟩

/-- Assignment `df[dst] = df[src].map(f)`: `KeyError` when `src` is absent from the
schema, otherwise map `f` over the source column into `dst`. -/
def mapColToNew (t : Table) (src dst : String)
    (f : Value → Except String Value) : Except String Table :=
  if t.cols.contains src then
    setColWith t dst (fun r => do
      let v ← getVal r src
      f v)
  else .error "KeyError"

/-- Python `str(value)` as used inside the f-string of line 82: `None` and
booleans render as their Python literal text.  (The rendering of a float as a
rational is a placeholder; no claim depends on it.) -/
def pyStr : Value → String
  | .null => "None"
  | .str s => s
  | .int n => toString n
  | .float q => toString q
  | .bool b => if b then "True" else "False"
  | .timestamp s => s

/-- The ISR lifetime-recognition column name (note the embedded newline). -/
def isrCol : String := "Institute for Social Research\nLifetime Recognition"

/-- The UM-wide lifetime-recognition column name. -/
def umCol : String := "UM-Wide\nLifetime Recognition"

/-- The five home-address component columns, in the order the source reads
them. -/
def homeFields : List String :=
  ["Home Address", "Home City", "Home State", "Home Zip", "Home Country"]

/-- Line 82: the `Primary Address` f-string
`f"{adr}, {city}, {state} {zip}, {country}"` over one row. -/
def primaryAddressRow (r : List (String × Value)) : Except String Value := do
  let a ← getVal r "Home Address"
  let c ← getVal r "Home City"
  let s ← getVal r "Home State"
  let z ← getVal r "Home Zip"
  let co ← getVal r "Home Country"
  pure (.str (pyStr a ++ ", " ++ pyStr c ++ ", " ++ pyStr s ++ " " ++
    pyStr z ++ ", " ++ pyStr co))

/-- Model of `pd.to_numeric(v, errors='coerce')` on one cell: numbers pass through,
numeric strings are parsed, anything unparseable coerces to null. -/
def toNumericCoerce : Value → Value
  | .null => .null
  | .str s =>
    match pyFloat s with
    | some q => .float q
    | none => .null
  | .int n => .int n
  | .float q => .float q
  | .bool b => .int (if b then 1 else 0)
  | .timestamp _ => .null

/-- Conversion `astype(int)` on a numeric cell: floats truncate toward zero. -/
def astypeInt : Value → Value
  | .int n => .int n
  | .float q => .int (q.num.tdiv (q.den : Int))
  | v => v

/-- Line 96: `pd.to_numeric(df['Age'], errors='coerce').fillna(0).astype(int)`
on one cell. -/
def ageTransform (v : Value) : Value :=
  astypeInt (if (toNumericCoerce v).isNull then .int 0 else toNumericCoerce v)

/-- Lines 72–98 of `clean_and_prepare_data`, the normalization applied once
`LID` is established: coordinate-column creation and rename, `Primary
Address`, the three `donor_status` steps, the two numeric monetary columns
(propagating `float`'s `ValueError`), and the `Age` coercion. -/
def normalizeRest (t0 : Table) : Except String Table := do
  let t1 :=
    if !(t0.cols.contains "Latitude") || !(t0.cols.contains "Longitude") then
      setColConst (setColConst t0 "Latitude" .null) "Longitude" .null
    else t0
  let t2 :=
    if t1.cols.contains "latitude" && t1.cols.contains "longitude" then
      renameCol (renameCol t1 "latitude" "Latitude") "longitude" "Longitude"
    else t1
  let t3 ← setColWith t2 "Primary Address" primaryAddressRow
  let t4 ← mapColToNew t3 isrCol "donor_status"
    (fun v => .ok (donorStatusFromISR v))
  let t5 ← setColWith t4 "donor_status" (fun r => do
    let d ← getVal r "donor_status"
    let u ← getVal r umCol
    pure (UM_donor d u))
  let t6 ← mapColToNew t5 "donor_status" "donor_status"
    (fun v => .ok (fillNonDonor v))
  let t7 ← mapColToNew t6 isrCol
    "Institute for Social Research Lifetime Recognition Numeric"
    (fun v => match replace v with
      | some w => .ok w
      | none => .error "ValueError")
  let t8 ← mapColToNew t7 umCol "UM-Wide Lifetime Recognition Numeric"
    (fun v => match replace v with
      | some w => .ok w
      | none => .error "ValueError")
  let t9 ← mapColToNew t8 "Age" "Age" (fun v => .ok (ageTransform v))
  return t9

/-- Lines 25–98, `clean_and_prepare_data(df)`: drop the fixed column list
(`KeyError` aborts if any is absent), rename `Constituent LookupID` to `LID`
(the `if` of line 61 only gates logging — pandas `rename` is already a no-op
when the source column is absent), and if `LID` is still absent return the
table early (lines 67–70, after one more no-op rename); otherwise run the
rest of the normalization. -/
def clean_and_prepare_data (t0 : Table) : Except String Table :=
  match dropColumns t0 with
  | .error e => .error e
  | .ok t1 =>
    let t2 := renameCol t1 "Constituent LookupID" "LID"
    if t2.cols.contains "LID" then normalizeRest t2
    else .ok (renameCol t2 "Constituent LookupID" "LID")

lemma renameCol_no_key (t : Table) (o n : String)
    (hcols : o ∉ t.cols)
    (hkeys : ∀ r ∈ t.rows, ∀ p ∈ r, p.1 ≠ o) :
    renameCol t o n = t := by
  obtain ⟨cols, rows⟩ := t
  simp only [renameCol, Table.mk.injEq]
  constructor
  · have h : ∀ c ∈ cols, (if c = o then n else c) = c := by
      intro c hc
      have hne : ¬ c = o := by
        intro he
        rw [he] at hc
        exact hcols hc
      rw [if_neg hne]
    rw [List.map_congr_left h]
    exact List.map_id' cols
  · have h : ∀ r ∈ rows, (r.map (fun p => (if p.1 = o then n else p.1, p.2))) = r := by
      intro r hr
      have h2 : ∀ p ∈ r, ((if p.1 = o then n else p.1, p.2) : String × Value) = p := by
        intro p hp
        rw [if_neg (hkeys r hr p hp)]
      rw [List.map_congr_left h2]
      exact List.map_id' r
    rw [List.map_congr_left h]
    exact List.map_id' rows

/-- C7, counterexample.  A table that has every drop-list column except
`Other Country.1` (a column whose removal is its only use) makes
`clean_and_prepare_data` abort with `KeyError` at the `df.drop` call: the
absence is not tolerated silently and the run aborts fatally. -/
theorem drop_missing_column_fatal :
    clean_and_prepare_data
      ⟨dropList.filter (fun c => decide (c ≠ "Other Country.1")), []⟩ =
      .error "KeyError" := rfl

/-- C7, amended.  `df.drop(columns=[...])` is called without
`errors='ignore'`, so if any column of the fixed drop list is absent from the
input table the whole run aborts with `KeyError`; absence is never tolerated
silently.  The log-and-continue handling applies only to the later
`Constituent LookupID` rename. -/
theorem drop_missing_column_aborts (t : Table) (c : String)
    (hc : c ∈ dropList) (habs : c ∉ t.cols) :
    clean_and_prepare_data t = .error "KeyError" := by
  have hall : dropList.all (fun c => t.cols.contains c) = false := by
    apply Bool.eq_false_iff.mpr
    intro hall
    exact habs (List.elem_iff.mp (List.all_eq_true.mp hall c hc))
  have hd : dropColumns t = .error "KeyError" := by
    simp only [dropColumns, hall, Bool.false_eq_true, if_false]
  simp [clean_and_prepare_data, hd]

/-- C7, witness: the empty-schema table aborts. -/
theorem drop_missing_column_aborts_witness :
    clean_and_prepare_data ⟨[], []⟩ = .error "KeyError" :=
  drop_missing_column_aborts ⟨[], []⟩ "Other Country.1" (by decide) (by decide)

/-- C8.  For a table that survives the drop but has neither
`Constituent LookupID` nor `LID`, `clean_and_prepare_data` returns early and
without raising: the result is exactly the table with the drop-list columns
removed (both renames are no-ops), and no column is added — so none of the
subsequent steps (coordinate creation, `Primary Address`, `donor_status`,
monetary parsing, `Age` coercion) touches the returned table. -/
theorem lid_missing_early_return (t : Table)
    (hdrop : ∀ c ∈ dropList, c ∈ t.cols)
    (hclid : "Constituent LookupID" ∉ t.cols)
    (hlid : "LID" ∉ t.cols)
    (hrows : ∀ r ∈ t.rows, ∀ p ∈ r, p.1 ∈ t.cols) :
    clean_and_prepare_data t =
      .ok ⟨t.cols.filter (fun c => !dropList.contains c),
           t.rows.map (fun r => r.filter (fun p => !dropList.contains p.1))⟩ ∧
    ∀ c : String, c ∈ t.cols.filter (fun c => !dropList.contains c) →
      c ∈ t.cols := by
  set td : Table := ⟨t.cols.filter (fun c => !dropList.contains c),
    t.rows.map (fun r => r.filter (fun p => !dropList.contains p.1))⟩ with htd
  have hsub : ∀ c ∈ td.cols, c ∈ t.cols := by
    intro c hc
    exact (List.mem_filter.mp hc).1
  have hd : dropColumns t = .ok td := by
    rw [dropColumns, if_pos]
    exact List.all_eq_true.mpr (fun c hc => List.elem_iff.mpr (hdrop c hc))
  have hkeys : ∀ r ∈ td.rows, ∀ p ∈ r, p.1 ≠ "Constituent LookupID" := by
    intro r hr p hp he
    simp only [htd, List.mem_map] at hr
    obtain ⟨r0, hr0, rfl⟩ := hr
    have hmem : p.1 ∈ t.cols := hrows r0 hr0 p (List.mem_of_mem_filter hp)
    rw [he] at hmem
    exact hclid hmem
  have h1 : renameCol td "Constituent LookupID" "LID" = td :=
    renameCol_no_key td _ _ (fun hc => hclid (hsub _ hc)) hkeys
  have h2 : td.cols.contains "LID" = false :=
    Bool.eq_false_iff.mpr (fun h => hlid (hsub _ (List.elem_iff.mp h)))
  refine ⟨?_, hsub⟩
  rw [clean_and_prepare_data, hd]
  simp only [h1, h2, Bool.false_eq_true, if_false]

/-- C8, witness: a table whose schema is exactly the drop list (so the drop
succeeds and no identifier column exists) is returned early as the empty
schema. -/
theorem lid_missing_early_return_witness :
    clean_and_prepare_data ⟨dropList, []⟩ =
      .ok ⟨dropList.filter (fun c => !dropList.contains c), []⟩ :=
  (lid_missing_early_return ⟨dropList, []⟩ (fun _ hc => hc) (by decide)
    (by decide) (by simp)).1

/-- Line 286: the address f-string
`f"{row['Home Address']}, {row['Home City']}, {row['Home State']} {row['Home Zip']}, {row['Home Country']}"`,
raising `KeyError` on a missing column (fields are read left to right; the
model's single error value makes the order immaterial). -/
def composeAddress (r : List (String × Value)) : Except String String :=
  match getVal r "Home Address" with
  | .error e => .error e
  | .ok a =>
    match getVal r "Home City" with
    | .error e => .error e
    | .ok c =>
      match getVal r "Home State" with
      | .error e => .error e
      | .ok s =>
        match getVal r "Home Zip" with
        | .error e => .error e
        | .ok z =>
          match getVal r "Home Country" with
          | .error e => .error e
          | .ok co =>
            .ok (pyStr a ++ ", " ++ pyStr c ++ ", " ++ pyStr s ++ " " ++
              pyStr z ++ ", " ++ pyStr co)

/-- One conjunct of line 287,
`pd.notna(row[field]) and row[field].strip() != ""`: a null cell
short-circuits to false; `.strip()` on a non-string non-null cell raises
`AttributeError`. -/
def checkField (r : List (String × Value)) (f : String) : Except String Bool :=
  match getVal r f with
  | .error e => .error e
  | .ok v =>
    if v = .null then .ok false
    else
      match v with
      | .str s => .ok (decide (¬ pyStrip s.data = []))
      | _ => .error "AttributeError"

/-- Line 287's `all(...)` over the five home-address fields, with Python's
left-to-right short-circuit evaluation. -/
def checkAll (r : List (String × Value)) : List String → Except String Bool
  | [] => .ok true
  | f :: fs =>
    match checkField r f with
    | .error e => .error e
    | .ok false => .ok false
    | .ok true => checkAll r fs

/-- Lines 285–288: decide whether one row needs geocoding, returning the
composed address when it does.  The `or` of line 285 short-circuits, the
address string of line 286 is composed before the `all` check of line 287
runs. -/
def needsRow (r : List (String × Value)) : Except String (Option String) :=
  match getVal r "Latitude" with
  | .error e => .error e
  | .ok lat =>
    let cond : Except String Bool :=
      if lat = .null then .ok true
      else
        match getVal r "Longitude" with
        | .error e => .error e
        | .ok lon => .ok (decide (lon = .null))
    match cond with
    | .error e => .error e
    | .ok false => .ok none
    | .ok true =>
      match composeAddress r with
      | .error e => .error e
      | .ok addr =>
        match checkAll r homeFields with
        | .error e => .error e
        | .ok true => .ok (some addr)
        | .ok false => .ok none

/-- The `for index, row in df.iterrows()` loop of lines 284–288, with `i` the
index of the first remaining row; selected rows are collected in index
order. -/
def collectAux : Nat → List (List (String × Value)) →
    Except String (List (Nat × String))
  | _, [] => .ok []
  | i, r :: rs =>
    match needsRow r with
    | .error e => .error e
    | .ok o =>
      match collectAux (i + 1) rs with
      | .error e => .error e
      | .ok rest =>
        match o with
        | some addr => .ok ((i, addr) :: rest)
        | none => .ok rest

/-- Lines 272–289, `collect_addresses_to_geocode(df)`: the dict from row
index to composed address, as an index-ordered association list. -/
def collect_addresses_to_geocode (rows : List (List (String × Value))) :
    Except String (List (Nat × String)) :=
  collectAux 0 rows

/-- A cell that is null or a string, as `Option Value`. -/
def nullOrStr : Option Value → Bool
  | some .null => true
  | some (.str _) => true
  | _ => false

/-- The data-model domain of the geocoding scan: the coordinate columns
exist and the five home-address cells are text or null (as in the source
spreadsheet). -/
def GeoRowWF (r : List (String × Value)) : Prop :=
  (r.lookup "Latitude").isSome = true ∧ (r.lookup "Longitude").isSome = true ∧
  ∀ f ∈ homeFields, nullOrStr (r.lookup f) = true

/-- The spec's candidate-selection criterion, stated in its own words (for
comparison with the code's `needsRow`): `Latitude` or `Longitude` is null,
and all five home-address components are non-null and non-blank after
trimming whitespace. -/
def specNeedsGeocode (r : List (String × Value)) : Prop :=
  (r.lookup "Latitude" = some Value.null ∨
    r.lookup "Longitude" = some Value.null) ∧
  ∀ f ∈ homeFields, ∃ s : String,
    r.lookup f = some (Value.str s) ∧ ¬ pyStrip s.data = []

lemma checkAll_wf (r : List (String × Value)) :
    ∀ fs : List String,
      (∀ f ∈ fs, nullOrStr (r.lookup f) = true) →
      ∃ b, checkAll r fs = .ok b ∧
        (b = true ↔ ∀ f ∈ fs, ∃ s : String,
          r.lookup f = some (Value.str s) ∧ ¬ pyStrip s.data = []) := by
  intro fs
  induction fs with
  | nil => exact fun _ => ⟨true, rfl, by simp⟩
  | cons f fs ih =>
    intro h
    have hf := h f (List.mem_cons_self f fs)
    obtain ⟨b', hb', hiff⟩ := ih (fun g hg => h g (List.mem_cons_of_mem f hg))
    rcases hv : r.lookup f with _ | v
    · rw [hv] at hf
      exact absurd hf (by simp [nullOrStr])
    · rw [hv] at hf
      cases v with
      | null =>
        refine ⟨false, ?_, ?_⟩
        · simp [checkAll, checkField, getVal, hv]
        · simp only [Bool.false_eq_true, false_iff]
          intro hall
          obtain ⟨s, hs, _⟩ := hall f (List.mem_cons_self f fs)
          rw [hv] at hs
          injection hs with hs
          exact Value.noConfusion hs
      | str s =>
        by_cases hblank : pyStrip s.data = []
        · refine ⟨false, ?_, ?_⟩
          · simp [checkAll, checkField, getVal, hv, hblank]
          · simp only [Bool.false_eq_true, false_iff]
            intro hall
            obtain ⟨s', hs', hne⟩ := hall f (List.mem_cons_self f fs)
            rw [hv] at hs'
            have : s = s' := by
              injection hs' with h1
              injection h1
            exact hne (this ▸ hblank)
        · refine ⟨b', ?_, ?_⟩
          · simp [checkAll, checkField, getVal, hv, hblank, hb']
          · rw [hiff]
            constructor
            · intro hall g hg
              rcases List.mem_cons.mp hg with rfl | hg'
              · exact ⟨s, hv, hblank⟩
              · exact hall g hg'
            · intro hall g hg
              exact hall g (List.mem_cons_of_mem f hg)
      | int n => exact absurd hf (by simp [nullOrStr])
      | float q => exact absurd hf (by simp [nullOrStr])
      | bool b => exact absurd hf (by simp [nullOrStr])
      | timestamp ts => exact absurd hf (by simp [nullOrStr])

lemma composeAddress_wf (r : List (String × Value))
    (h : ∀ f ∈ homeFields, nullOrStr (r.lookup f) = true) :
    ∃ a, composeAddress r = .ok a := by
  have hget : ∀ f ∈ homeFields, ∃ v, getVal r f = .ok v := by
    intro f hf
    have := h f hf
    rcases hv : r.lookup f with _ | v
    · rw [hv] at this
      exact absurd this (by simp [nullOrStr])
    · exact ⟨v, by simp [getVal, hv]⟩
  obtain ⟨v1, h1⟩ := hget "Home Address" (by simp [homeFields])
  obtain ⟨v2, h2⟩ := hget "Home City" (by simp [homeFields])
  obtain ⟨v3, h3⟩ := hget "Home State" (by simp [homeFields])
  obtain ⟨v4, h4⟩ := hget "Home Zip" (by simp [homeFields])
  obtain ⟨v5, h5⟩ := hget "Home Country" (by simp [homeFields])
  refine ⟨pyStr v1 ++ ", " ++ pyStr v2 ++ ", " ++ pyStr v3 ++ " " ++
    pyStr v4 ++ ", " ++ pyStr v5, ?_⟩
  simp [composeAddress, h1, h2, h3, h4, h5]

lemma needsRow_wf (r : List (String × Value)) (h : GeoRowWF r) :
    ∃ o, needsRow r = .ok o ∧ (o.isSome = true ↔ specNeedsGeocode r) := by
  obtain ⟨hlat, hlon, hfields⟩ := h
  obtain ⟨lat, hlat'⟩ := Option.isSome_iff_exists.mp hlat
  obtain ⟨lon, hlon'⟩ := Option.isSome_iff_exists.mp hlon
  by_cases hcond : lat = Value.null ∨ lon = Value.null
  · obtain ⟨addr, haddr⟩ := composeAddress_wf r hfields
    obtain ⟨b, hb, hiff⟩ := checkAll_wf r homeFields hfields
    have hrun : needsRow r = .ok (if b then some addr else none) := by
      rcases hcond with hc | hc
      · subst hc
        simp only [needsRow, getVal, hlat', haddr, hb, if_pos rfl]
        cases b <;> rfl
      · subst hc
        by_cases hl : lat = Value.null
        · subst hl
          simp only [needsRow, getVal, hlat', haddr, hb, if_pos rfl]
          cases b <;> rfl
        · simp only [needsRow, getVal, hlat', hlon', if_neg hl, decide_eq_true_eq]
          simp only [haddr, hb]
          cases b <;> rfl
    refine ⟨if b then some addr else none, hrun, ?_⟩
    constructor
    · intro hsome
      have hb' : b = true := by
        cases b
        · simp at hsome
        · rfl
      refine ⟨?_, hiff.mp hb'⟩
      rcases hcond with hc | hc
      · exact Or.inl (hc ▸ hlat')
      · exact Or.inr (hc ▸ hlon')
    · intro hspec
      have hb' : b = true := hiff.mpr hspec.2
      simp [hb']
  · push_neg at hcond
    have hrun : needsRow r = .ok none := by
      simp only [needsRow, getVal, hlat', hlon', if_neg hcond.1,
        decide_eq_false hcond.2]
    refine ⟨none, hrun, ?_⟩
    constructor
    · intro h'
      exact absurd h' (by decide)
    · intro hspec
      exfalso
      rcases hspec.1 with hc | hc
      · rw [hlat'] at hc
        exact hcond.1 (by injection hc)
      · rw [hlon'] at hc
        exact hcond.2 (by injection hc)

lemma collectAux_wf :
    ∀ (rows : List (List (String × Value))) (i0 : Nat),
      (∀ r ∈ rows, GeoRowWF r) →
      ∃ out, collectAux i0 rows = .ok out ∧
        ∀ (i : Nat) (a : String), ((i, a) ∈ out ↔
          ∃ j r, rows[j]? = some r ∧ i = i0 + j ∧ needsRow r = .ok (some a)) := by
  intro rows
  induction rows with
  | nil =>
    intro i0 _
    exact ⟨[], rfl, by simp⟩
  | cons r rs ih =>
    intro i0 hwf
    obtain ⟨o, ho, _⟩ := needsRow_wf r (hwf r (List.mem_cons_self r rs))
    obtain ⟨out', hout', hiff'⟩ := ih (i0 + 1)
      (fun r' hr' => hwf r' (List.mem_cons_of_mem r hr'))
    have hstep : ∀ (i : Nat) (a : String),
        ((∃ j r', (r :: rs)[j]? = some r' ∧ i = i0 + j ∧
            needsRow r' = .ok (some a)) ↔
          (i = i0 ∧ needsRow r = .ok (some a)) ∨
          ∃ j r', rs[j]? = some r' ∧ i = (i0 + 1) + j ∧
            needsRow r' = .ok (some a)) := by
      intro i a
      constructor
      · rintro ⟨j, r', hj, hi, hn⟩
        cases j with
        | zero =>
          refine Or.inl ⟨by omega, ?_⟩
          simp only [List.getElem?_cons_zero] at hj
          injection hj with hj
          exact hj ▸ hn
        | succ j' =>
          refine Or.inr ⟨j', r', ?_, by omega, hn⟩
          simpa using hj
      · rintro (⟨hi, hn⟩ | ⟨j', r', hj, hi, hn⟩)
        · exact ⟨0, r, by simp, by omega, hn⟩
        · exact ⟨j' + 1, r', by simpa using hj, by omega, hn⟩
    cases o with
    | some addr =>
      refine ⟨(i0, addr) :: out', ?_, ?_⟩
      · simp only [collectAux, ho, hout']
      · intro i a
        rw [hstep i a]
        simp only [List.mem_cons, Prod.mk.injEq, hiff' i a]
        constructor
        · rintro (⟨rfl, rfl⟩ | h)
          · exact Or.inl ⟨rfl, ho⟩
          · exact Or.inr h
        · rintro (⟨rfl, hn⟩ | h)
          · rw [ho] at hn
            injection hn with hn
            injection hn with hn
            exact Or.inl ⟨rfl, hn.symm⟩
          · exact Or.inr h
    | none =>
      refine ⟨out', ?_, ?_⟩
      · simp only [collectAux, ho, hout']
      · intro i a
        rw [hstep i a, hiff' i a]
        constructor
        · exact Or.inr
        · rintro (⟨rfl, hn⟩ | h)
          · rw [ho] at hn
            injection hn with hn
            exact Option.noConfusion hn
          · exact h

/-- C2.  Over the data-model domain (coordinate columns present, address
cells text-or-null), the geocoding scan raises nothing, and a row index is
selected iff `Latitude` or `Longitude` is null and all five home-address
components are non-null and non-blank after trimming — in particular a row
with a blank or null address component is never selected. -/
theorem collect_addresses_spec (rows : List (List (String × Value)))
    (hwf : ∀ r ∈ rows, GeoRowWF r) :
    ∃ out, collect_addresses_to_geocode rows = .ok out ∧
      ∀ i : Nat, ((∃ a, (i, a) ∈ out) ↔
        ∃ r, rows[i]? = some r ∧ specNeedsGeocode r) := by
  obtain ⟨out, hout, hiff⟩ := collectAux_wf rows 0 hwf
  refine ⟨out, hout, ?_⟩
  intro i
  constructor
  · rintro ⟨a, ha⟩
    obtain ⟨j, r, hj, hi, hn⟩ := (hiff i a).mp ha
    have : j = i := by omega
    subst this
    obtain ⟨o, ho, hso⟩ := needsRow_wf r (hwf r (List.getElem?_mem hj))
    rw [ho] at hn
    injection hn with hn
    refine ⟨r, hj, hso.mp ?_⟩
    rw [hn]
    rfl
  · rintro ⟨r, hj, hspec⟩
    obtain ⟨o, ho, hso⟩ := needsRow_wf r (hwf r (List.getElem?_mem hj))
    obtain ⟨a, ha⟩ := Option.isSome_iff_exists.mp (hso.mpr hspec)
    refine ⟨a, (hiff i a).mpr ⟨i, r, hj, by omega, ?_⟩⟩
    rw [ho, ha]

/-- A three-row table exercising the geocoding scan: row 0 complete and
uncoded, row 1 with a blank city, row 2 already coded. -/
def geoRow0 : List (String × Value) :=
  [("Latitude", Value.null), ("Longitude", Value.null),
   ("Home Address", Value.str "123 Main St"), ("Home City", Value.str "Ann Arbor"),
   ("Home State", Value.str "MI"), ("Home Zip", Value.str "48104"),
   ("Home Country", Value.str "USA")]

/-- Row 1: blank `Home City` (whitespace only). -/
def geoRow1 : List (String × Value) :=
  [("Latitude", Value.null), ("Longitude", Value.null),
   ("Home Address", Value.str "123 Main St"), ("Home City", Value.str " "),
   ("Home State", Value.str "MI"), ("Home Zip", Value.str "48104"),
   ("Home Country", Value.str "USA")]

/-- Row 2: coordinates already present. -/
def geoRow2 : List (String × Value) :=
  [("Latitude", Value.float 42), ("Longitude", Value.float (-83)),
   ("Home Address", Value.str "123 Main St"), ("Home City", Value.str "Ann Arbor"),
   ("Home State", Value.str "MI"), ("Home Zip", Value.str "48104"),
   ("Home Country", Value.str "USA")]

/-- C2, witness: on the three-row table, the scan succeeds, row 0 is
selected, and rows 1 (blank city) and 2 (already coded) are not. -/
theorem collect_addresses_spec_witness :
    ∃ out, collect_addresses_to_geocode [geoRow0, geoRow1, geoRow2] = .ok out ∧
      (∃ a, (0, a) ∈ out) ∧ ¬ (∃ a, (1, a) ∈ out) ∧ ¬ (∃ a, (2, a) ∈ out) := by
  obtain ⟨out, hout, hiff⟩ :=
    collect_addresses_spec [geoRow0, geoRow1, geoRow2]
      (by intro r hr; fin_cases hr <;> exact ⟨rfl, rfl, by decide⟩)
  refine ⟨out, hout, ?_, ?_, ?_⟩
  · refine (hiff 0).mpr ⟨geoRow0, rfl, Or.inl rfl, ?_⟩
    intro f hf
    fin_cases hf <;> exact ⟨_, rfl, by decide⟩
  · intro h
    obtain ⟨r, hr, hspec⟩ := (hiff 1).mp h
    injection hr with hr
    subst hr
    obtain ⟨s, hs, hne⟩ := hspec.2 "Home City" (by simp [homeFields])
    have : s = " " := by
      have : (Value.str " ") = Value.str s := by
        have := hs
        simp only [geoRow1, List.lookup] at this
        simpa using this
      injection this with h'
      exact h'.symm
    exact hne (by rw [this]; decide)
  · intro h
    obtain ⟨r, hr, hspec⟩ := (hiff 2).mp h
    injection hr with hr
    subst hr
    rcases hspec.1 with hc | hc <;> simp [geoRow2, List.lookup] at hc

end ISRDash
